import Mathlib

/-!
Verification of the linearization module of this repository (the accessible,
list-based view over a Blockly workspace, file `linearization.js`, referred to
below by its line numbers).  The development shallowly embeds the relevant
functions: the `BlockJoiner` two-slot move protocol (`push`,
`attemptConnection_`), the static connection guard
`Blockly.Linearization.checkConnection`, the stack-marker successor
`nextStackMarker`, the debounced change listener `onChange`, the
event-to-selection map `alterSelectedWithEvent_` with its cooldown, the
empty-workspace early return of `generateList_`, and the whole-workspace
render pipeline `makeWorkspaceView_` / `makeStackItem_` / `makeBlockList_` /
`getIfBranches`.

Host-side primitives (the Blockly AST cursor operations and the host
connection-compatibility test) are not part of the shipped sources; they are
modelled from the specification where indicated by doc comments starting with
`Modelled from the spec:`.
-/

/-! ## Connections and entity locations -/

/-- Modelled from the spec: a connection is a typed attachment point,
direction-significant -- predecessor-facing vs successor-facing, statement vs
value.  `nextK` stands for successor-facing statement connections (a next
connection or a statement input), `prevK` for a previous connection, `valK`
for a value input, `outK` for an output connection. -/
inductive ConnKind where
  | prevK
  | nextK
  | outK
  | valK
deriving DecidableEq, Repr

/-- The concrete entity an AST cursor points at: a block, a connection
(tagged with its kind and the id of its source block), or a field (tagged
with the id of its source block). -/
inductive TLoc where
  | blockLoc (id : Nat)
  | connLoc (kind : ConnKind) (srcId : Nat)
  | fieldLoc (srcId : Nat)
deriving DecidableEq, Repr

/-- Modelled from the spec: two connections are type-compatible exactly when
their kinds complement each other (successor statement with previous
statement, value input with output). -/
def compatKind : ConnKind → ConnKind → Bool
  | .nextK, .prevK => true
  | .prevK, .nextK => true
  | .valK, .outK => true
  | .outK, .valK => true
  | _, _ => false

/-- Modelled from the spec: the host connection test
`Connection.checkConnection_` throws on a benign type mismatch, and throws a
`TypeError` when its argument is not a connection at all (a `Block` or
`Field` has no complementary connection kind; the host dereferences
`target.getSourceBlock` on a connection-shaped value).  A normal return means
the pair is type-compatible. -/
def hostCheckConnection (k : ConnKind) (target : TLoc) : Except String Unit :=
  match target with
  | .connLoc k2 _ => if compatKind k k2 then .ok () else .error "Connection checks failed"
  | .blockLoc _ => .error "TypeError: target has no connection shape"
  | .fieldLoc _ => .error "TypeError: target has no connection shape"

/-- The data of `Blockly.Linearization.checkConnection`-s first argument that
the function consumes: `kind` is what `conn.getLocation()` exposes to the
host test, and `ancestorBlockIds` is
`conn.collect(n => n.ascend()).filter(BLOCK).map(getLocation)` -- the chain
of ancestor blocks of the connection, starting with its own source block.
Modelled from the spec: the cursor operation that produces an ancestor
chain. -/
structure LinConnNode where
  kind : ConnKind
  ancestorBlockIds : List Nat
deriving DecidableEq, Repr

namespace Linearization

/-- Embedding of `Blockly.Linearization.checkConnection` (lines 1447-1458).
The `blockConn` argument is the candidate node, `Option.none` standing for a
null node (whose `getLocation()` dereference throws).  The first step is the
guarded `try` block: any throw inside it returns `false`.  The ancestor test
on line 1457 runs outside the `try`, so a `blockConn` without a
`getSourceBlock` method would propagate a `TypeError` from there; the result
is therefore an `Except`. -/
def checkConnection (conn : LinConnNode) (blockConn : Option TLoc) : Except String Bool :=
  let tryStep : Except String Unit :=
    match blockConn with
    | Option.none => .error "TypeError: blockConn is null"
    | Option.some t => hostCheckConnection conn.kind t
  match tryStep with
  | .error _ => .ok false
  | .ok _ =>
    match blockConn with
    | Option.none => .error "TypeError: blockConn is null"
    | Option.some (.blockLoc _) => .error "TypeError: getSourceBlock is not a function"
    | Option.some (.fieldLoc s) => .ok (!(conn.ancestorBlockIds.contains s))
    | Option.some (.connLoc _ s) => .ok (!(conn.ancestorBlockIds.contains s))

/-- The value the callers of `checkConnection` observe: every call site uses
the function inside a boolean position, and on the reachable inputs the
function never throws (see the C10 theorem), so the error arm is
inaccessible; it is mapped to `false` only to make the adapter total. -/
def checkConnectionB (conn : LinConnNode) (blockConn : Option TLoc) : Bool :=
  match checkConnection conn blockConn with
  | .ok b => b
  | .error _ => false

end Linearization

/-! ## AST cursor nodes and the BlockJoiner -/

/-- The cursor type tags of `Blockly.ASTNode.types`. -/
inductive NType where
  | workspaceT
  | stackT
  | blockT
  | prevT
  | nextT
  | inputT
  | outputT
  | fieldT
deriving DecidableEq, Repr

/-- Modelled from the spec: an AST cursor exposes its type tag, the concrete
entity at its position, and directional moves to the previous and next
sibling position.  Only the navigation depth that `attemptConnection_`
actually exercises (two steps) needs to be materialized, so the links are
stored values. -/
inductive ANode where
  | mk (typ : NType) (loc : TLoc) (prevN : Option ANode) (nextN : Option ANode)

def ANode.getType : ANode → NType
  | .mk t _ _ _ => t

def ANode.getLocation : ANode → TLoc
  | .mk _ l _ _ => l

def ANode.prev : ANode → Option ANode
  | .mk _ _ p _ => p

def ANode.next : ANode → Option ANode
  | .mk _ _ _ n => n

namespace BlockJoiner

/-- The two slots of `Blockly.Linearization.BlockJoiner` (lines 105-117). -/
structure Joiner where
  blockNode : Option ANode
  connectionNode : Option ANode

/-- The host-visible side effects of one `attemptConnection_` run. -/
structure JoinEffects where
  disconnected : List TLoc
  bumped : Nat
  connected : List (TLoc × TLoc)
  reloaded : Bool
  warned : Bool
deriving DecidableEq, Repr

def noEffects : JoinEffects := ⟨[], 0, [], false, false⟩

/-- The possible outcomes of the host-level `connect` call on line 188:
a successful connect, a benign thrown mismatch (caught and only logged), or
a thrown `DOMException` (caught; forces `document.location.reload()`). -/
inductive ConnectOutcome where
  | success
  | benignError
  | domError
deriving DecidableEq, Repr

/-- The result of one service run: the new slot state, the effects, and
whether the run terminated by an uncaught throw (in which case the lines
after the throwing statement never executed). -/
structure ServiceResult where
  joiner : Joiner
  eff : JoinEffects
  threw : Bool

/-- Embedding of `BlockJoiner.prototype.attemptConnection_`
(lines 147-205).  Control flow, in source order:
lines 148-150 return when either slot is empty; lines 152-170 pick the
direction functions from the connection node type, returning with the slots
untouched on the fall-through warning; line 173 dereferences
`back(provided).getLocation()` outside any `try`, so a missing sibling node
throws and the slots survive; lines 176-183 are the swallowed disconnect
`try` (the disconnect happens when the node two steps back exists and the
step-back node is a previous or output connection); lines 187-200 call the
host `connect` inside a `try` whose `DOMException` arm reloads the page;
lines 202-204 clear both slots unconditionally. -/
def attemptConnection (outcome : ConnectOutcome) (j : Joiner) : ServiceResult :=
  match j.blockNode, j.connectionNode with
  | Option.some provided, Option.some connNode =>
    let dirForward : Option Bool :=
      match connNode.getType with
      | .nextT => Option.some true
      | .inputT => Option.some true
      | .prevT => Option.some false
      | .outputT => Option.some false
      | _ => Option.none
    match dirForward with
    | Option.none => ⟨j, { noEffects with warned := true }, false⟩
    | Option.some fwd =>
      let backNode : Option ANode := if fwd then provided.prev else provided.next
      match backNode with
      | Option.none => ⟨j, noEffects, true⟩
      | Option.some bn =>
        let providedBlock := bn.getLocation
        let eff1 : JoinEffects :=
          match provided.prev with
          | Option.some pn =>
            match pn.prev with
            | Option.some _ =>
              if pn.getType = .prevT ∨ pn.getType = .outputT then
                { noEffects with disconnected := [pn.getLocation], bumped := 1 }
              else noEffects
            | Option.none => noEffects
          | Option.none => noEffects
        let eff2 : JoinEffects :=
          { eff1 with
            connected := [(connNode.getLocation, providedBlock)]
            warned := outcome ≠ ConnectOutcome.success
            reloaded := outcome = ConnectOutcome.domError }
        ⟨⟨Option.none, Option.none⟩, eff2, false⟩
  | _, _ => ⟨j, noEffects, false⟩

/-- The slot-classification step of `BlockJoiner.prototype.push`
(lines 126-134): a block-located item lands in `blockNode`, a
connection-located item in `connectionNode`, anything else falls through
with a warning and no state change. -/
def pushClassify (j : Joiner) (item : ANode) : Option Joiner :=
  match item.getLocation with
  | .blockLoc _ => Option.some { j with blockNode := Option.some item }
  | .connLoc _ _ => Option.some { j with connectionNode := Option.some item }
  | .fieldLoc _ => Option.none

/-- Embedding of `BlockJoiner.prototype.push` (lines 126-140): classify the
item, return `false` on fall-through, otherwise run `attemptConnection_`
immediately and return `true`. -/
def push (outcome : ConnectOutcome) (j : Joiner) (item : ANode) : Bool × ServiceResult :=
  match pushClassify j item with
  | Option.some j1 => (true, attemptConnection outcome j1)
  | Option.none => (false, ⟨j, noEffects, false⟩)

end BlockJoiner

/-! ## Stack markers -/

/-- Fuel-bounded body of `Blockly.Linearization.nextStackMarker`
(lines 1558-1565).  The source recurses on the marker minus its final
character; the fuel argument (instantiated with the marker length, a strict
bound on the recursion depth) makes that recursion structurally visible.
Markers are embedded as lists of character codes; 90 is the code of Z and
65 the code of A. -/
def markerStep : Nat → List Nat → List Nat
  | _, [] => []
  | 0, _ :: _ => []
  | fuel + 1, c :: cs =>
    let pre := (c :: cs).dropLast
    let lastC := (c :: cs).getLast (List.cons_ne_nil c cs)
    if lastC = 90 then
      (if pre.isEmpty then [65] else markerStep fuel pre) ++ [65]
    else
      pre ++ [lastC + 1]

/-- Embedding of `Blockly.Linearization.nextStackMarker` (lines 1558-1565). -/
def nextStackMarker (m : List Nat) : List Nat := markerStep m.length m

/-- Strict lexicographic order on code lists (the order the spec names). -/
def lexLt : List Nat → List Nat → Bool
  | [], [] => false
  | [], _ :: _ => true
  | _ :: _, [] => false
  | a :: as, b :: bs => if a < b then true else if b < a then false else lexLt as bs

/-- Shortlex order: shorter lists first, ties broken lexicographically. -/
def shortLexLt (a b : List Nat) : Bool :=
  decide (a.length < b.length) || (decide (a.length = b.length) && lexLt a b)

/-- The marker assigned to the stack at position `n` by `makeWorkspaceView_`
(lines 431-444): the marker starts at A and `makeStackItem_` advances it
with `nextStackMarker` once per stack. -/
def markerAt : Nat → List Nat
  | 0 => [65]
  | n + 1 => nextStackMarker (markerAt n)

/-! ## The debounced change listener -/

/-- The state that `Blockly.Linearization.prototype.onChange`
(lines 225-244) manipulates: the single latest pending event
(`this.pendingRenderEvent_`) plus the record of the events with which
`generateList_` actually ran.  Events carry an identity, compared with
`===` in the source; distinct notifications are distinct objects, embedded
as distinct numbers. -/
structure Debouncer where
  pendingRenderEvent : Option Nat
  rendered : List Nat
deriving DecidableEq, Repr

/-- The synchronous part of `onChange` (line 231): record the event as the
single latest pending event. -/
def notifyD (d : Debouncer) (e : Nat) : Debouncer :=
  { d with pendingRenderEvent := Option.some e }

/-- The delayed callback of `onChange` (lines 234-242): at fire time, run
the render only when the latest pending event is still the event the
callback was scheduled with, clearing the pending slot; otherwise reject
with no work. -/
def fireD (d : Debouncer) (e : Nat) : Debouncer :=
  if d.pendingRenderEvent = Option.some e then
    { pendingRenderEvent := Option.none, rendered := d.rendered ++ [e] }
  else d

/-- A burst of notifications all inside the debounce window: every `notify`
runs before any timer fires, then the timers fire in scheduling order. -/
def runBurst (es : List Nat) : Debouncer :=
  es.foldl fireD (es.foldl notifyD ⟨Option.none, []⟩)

/-! ## Selection state and the cooldown -/

/-- A JavaScript value that `this.cooldown_` can hold: the field starts as
the number 0, `startEventCooldown_` stores a timestamp number, and line 304
stores a boolean back into it. -/
inductive CoolVal where
  | num (n : Nat)
  | boolean (b : Bool)
deriving DecidableEq, Repr

/-- JavaScript truthiness of a `CoolVal`. -/
def truthyC : CoolVal → Bool
  | .num n => n ≠ 0
  | .boolean b => b

/-- JavaScript numeric coercion of a `CoolVal` (booleans coerce to 0/1 for
the `<` comparison on line 304). -/
def toNatC : CoolVal → Nat
  | .num n => n
  | .boolean b => if b then 1 else 0

/-- The workspace events distinguished by `alterSelectedWithEvent_`
(lines 303-341); the UI event arm is not needed by the claims. -/
inductive WsEvent where
  | blockMove (blockId : Nat)
  | blockCreate (blockId : Nat)
  | blockDelete
  | finishedLoading
deriving DecidableEq, Repr

/-- The state of the `Linearization` instance that the claims touch:
the block ids in the workspace, the two rendered HTML containers, the
selection with its branch context, the cooldown, and the two
`BlockJoiner` slots (kept abstract as the ids the nodes point to). -/
structure LinState where
  blocks : List Nat
  parentNavHTML : String
  mainNavHTML : String
  selected : Option Nat
  selectedBranch : Option Nat
  cooldown : CoolVal
  joinerBlockSlot : Option Nat
  joinerConnSlot : Option Nat
deriving DecidableEq, Repr

/-- Embedding of `listItemOnclick_` (lines 1368-1375) as far as selection is
concerned: select the node and, when the node exists, store the (absent)
branch argument into it. -/
def listItemOnclick (node : Option Nat) (st : LinState) : LinState :=
  { st with selected := node, selectedBranch := Option.none }

/-- Embedding of `alterSelectedWithEvent_` (lines 303-341) together with
`startEventCooldown_` (lines 347-349).  Line 304 executes first for every
event: `this.cooldown_ = this.cooldown_ && this.cooldown_ < now`, which
keeps a falsy value and otherwise stores the boolean saying whether the
stored deadline lies strictly in the past.  A move event returns early,
leaving the selection alone, when that value is truthy; otherwise the moved
block is looked up and selected.  A create event selects the created block
and, when the block was found, stores `now + 100` as the cooldown.  Delete
and load-finished clear the selection. -/
def alterSelectedWithEvent (now : Nat) (e : WsEvent) (st : LinState) : LinState :=
  let cd := if truthyC st.cooldown then CoolVal.boolean (toNatC st.cooldown < now)
            else st.cooldown
  let st := { st with cooldown := cd }
  match e with
  | .blockMove id =>
    if truthyC cd then st
    else
      let node := if st.blocks.contains id then Option.some id else Option.none
      listItemOnclick node st
  | .blockCreate id =>
    let node := if st.blocks.contains id then Option.some id else Option.none
    let st := match node with
      | Option.some _ => { st with cooldown := CoolVal.num (now + 100) }
      | Option.none => st
    listItemOnclick node st
  | .blockDelete => listItemOnclick Option.none st
  | .finishedLoading => listItemOnclick Option.none st

/-- Embedding of `generateList_` (lines 251-281) at the granularity the
claims need.  With no blocks in the workspace, lines 252-257 replace the
parent nav with the placeholder, empty the main list, and return before the
event is processed.  Otherwise the event (when present) flows through
`alterSelectedWithEvent_` and the two containers are rebuilt; the rebuilt
content itself is summarized by placeholder strings since the claims about
the non-empty path are settled against the dedicated render model below. -/
def generateList (now : Nat) (st : LinState) (e : Option WsEvent) : LinState :=
  if st.blocks.length = 0 then
    { st with parentNavHTML := "(empty workspace)", mainNavHTML := "" }
  else
    let st1 := match e with
      | Option.some ev => alterSelectedWithEvent now ev st
      | Option.none => st
    { st1 with parentNavHTML := "parent nav", mainNavHTML := "main nav list" }

/-! ## The block tree

The workspace is a forest of stacks; a stack is a chain of blocks; a block
carries its id, its host type string, the text of the direction field of a
while/until block, the existence flags of its output, previous and next
connections, and its ordered children.  A child is either a value input
(possibly holding an inline expression block) or a statement input holding
a sub-stack.  Modelled from the spec: the cursor operations used by the
renderer (`in`, `next`, `nextBlock`, `inBlock`, `collect`, `ascend`) walk
this structure; `collect(n => n.nextBlock())` from the first block of a
sequence enumerates the chain, `inBlock()` finds the first nested statement
block, and the ancestor chain of a connection starts at its source block and
continues through the enclosing blocks. -/

mutual

inductive Blk : Type where
  | mk (id : Nat) (btype : String) (untilText : String) (hasOutput : Bool)
       (hasPrev : Bool) (hasNext : Bool) (inputs : InputList) : Blk

inductive InputList : Type where
  | nil : InputList
  | cons (i : BInput) (rest : InputList) : InputList

inductive BInput : Type where
  | val (child : OptBlk) : BInput
  | stmt (body : BlkList) : BInput

inductive OptBlk : Type where
  | none : OptBlk
  | some (b : Blk) : OptBlk

inductive BlkList : Type where
  | nil : BlkList
  | cons (b : Blk) (rest : BlkList) : BlkList

end

def Blk.id : Blk → Nat
  | .mk i _ _ _ _ _ _ => i

def Blk.btype : Blk → String
  | .mk _ t _ _ _ _ _ => t

def Blk.hasOutput : Blk → Bool
  | .mk _ _ _ o _ _ _ => o

def Blk.inputs : Blk → InputList
  | .mk _ _ _ _ _ _ ins => ins

def BlkList.isNil : BlkList → Bool
  | .nil => true
  | .cons _ _ => false

def InputList.isNil : InputList → Bool
  | .nil => true
  | .cons _ _ => false

/-- The number of statement inputs among the children of a block. -/
def stmtCount : InputList → Nat
  | .nil => 0
  | .cons (.stmt _) rest => stmtCount rest + 1
  | .cons (.val _) rest => stmtCount rest

/-- Whether some statement input holds a nonempty sub-stack; this is the
truthiness of `node.inBlock()` in the source. -/
def hasFirstNested : InputList → Bool
  | .nil => false
  | .cons (.stmt (BlkList.cons _ _)) _ => true
  | .cons (.stmt BlkList.nil) rest => hasFirstNested rest
  | .cons (.val _) rest => hasFirstNested rest

/-- Embedding of `Blockly.Linearization.getNestingBlockName`
(lines 1505-1521): the shorthand names of the nesting constructs, with the
while/until special case read from the direction field text. -/
def getNestingBlockName (btype untilText : String) : Option String :=
  if btype = "controls_if" then Option.some "if"
  else if btype = "controls_repeat_ext" then Option.some "repeat"
  else if btype = "controls_forEach" then Option.some "for each"
  else if btype = "controls_for" then Option.some "for"
  else if btype = "procedures_defnoreturn" then Option.some "function"
  else if btype = "procedures_defreturn" then Option.some "function"
  else if btype = "controls_whileUntil" then
    Option.some (if untilText = "until" then "repeat until" else "repeat while")
  else Option.none

/-- Where a block sits in the sequence currently being rendered: first block
of a top-level stack, first block of a statement-input body, or a later
sibling.  The position determines what `node.prev().prev()` is (nothing or a
stack node, an INPUT connection node, or the NEXT node of the prior
sibling), and whether `block.getParent()` exists. -/
inductive SeqPos where
  | stackTop
  | bodyTop
  | midSeq
deriving DecidableEq, Repr

/-- The data of `this.blockJoiner.blockNode` that the renderer consumes: the
id of the moving block and the locations of `blockNode.prev()` and
`blockNode.next()` (absent when the block lacks that connection). -/
structure MovCtx where
  movId : Nat
  movPrev : Option TLoc
  movNext : Option TLoc
deriving DecidableEq, Repr

/-- One rendered list entry of the workspace view, keeping the data the
claims are stated over: block entries carry the block id, if-branch headers
carry the if id and the branch key, connection entries carry the target
connection (kind and source block id) and their label text. -/
inductive RItem where
  | blockItem (id : Nat)
  | ifHeaderBlock (ifId : Nat) (key : Nat)
  | ifHeaderConn (ifId : Nat) (key : Nat)
  | connItem (kind : ConnKind) (srcId : Nat) (text : String)
  | endLabel (name : String)
  | textItem (text : String)
deriving DecidableEq, Repr

/-- The end-of-construct label items of a block with the given type and
direction-field text (lines 488-495): one labelled list item for a named
nesting construct, nothing otherwise. -/
def endLabelOf (btype untilText : String) : List RItem :=
  match getNestingBlockName btype untilText with
  | Option.some nm => [RItem.endLabel ("end " ++ nm)]
  | Option.none => []

/-- Embedding of `makePrevConnectionItem_` (lines 682-698).  The item is
considered only while a move is pending (the rendered node is a fresh
cursor, so the `blockNode !== node` reference comparison holds); the
candidate connection is `node.prev()` (the previous connection, or the
output connection of an output block); `displayPrev` requires that no NEXT
connection precede it, i.e. that the block head its sequence; the guard is
`checkConnection(prevConn, blockNode.next())`; when the preceding node is an
INPUT connection the item binds that input connection instead. -/
def makePrevConnectionItem (mov : Option MovCtx) (path : List Nat) (pos : SeqPos)
    (id : Nat) (hasOut hasPrev : Bool) : Option RItem :=
  match mov with
  | Option.none => Option.none
  | Option.some m =>
    let hasPrevConn := hasPrev || hasOut
    let kind := if hasPrev then ConnKind.prevK else ConnKind.outK
    if hasPrevConn && (pos != SeqPos.midSeq) &&
        Linearization.checkConnectionB ⟨kind, id :: path⟩ m.movNext then
      if pos == SeqPos.bodyTop then
        Option.some (RItem.connItem ConnKind.nextK (path.headD 0) "Insert above")
      else
        Option.some (RItem.connItem kind id "Insert above")
    else Option.none

/-- Embedding of `makeNextConnectionItem_` (lines 707-720): while a move is
pending, offer `node.next()` when `checkConnection(nextConn,
blockNode.prev())` passes, labelled by whether a sibling follows. -/
def makeNextConnectionItem (mov : Option MovCtx) (path : List Nat) (hasNextSib : Bool)
    (id : Nat) (hasNext : Bool) : Option RItem :=
  match mov with
  | Option.none => Option.none
  | Option.some m =>
    if hasNext && Linearization.checkConnectionB ⟨ConnKind.nextK, id :: path⟩ m.movPrev then
      Option.some (RItem.connItem ConnKind.nextK id
        (if hasNextSib then "Insert between" else "Insert below"))
    else Option.none

/-- Embedding of `makeInnerInputList_` (lines 729-763) as called from the
workspace view (line 566-569, `this.selected` null): the value-input
children are filtered away, every surviving statement-input connection runs
through `checkConnection(n, blockNode.prev())` (the check depends only on
the shared kind and ancestor chain), and the survivors are numbered when
more than one exists.  Field children are omitted from the embedding: they
can never pass the host connection test. -/
def innerInputItems (mov : Option MovCtx) (path : List Nat) (id : Nat)
    (withins : Nat) : List RItem :=
  match mov with
  | Option.none => []
  | Option.some m =>
    if Linearization.checkConnectionB ⟨ConnKind.nextK, id :: path⟩ m.movPrev then
      (List.range withins).map (fun i =>
        RItem.connItem ConnKind.nextK id
          ("Insert within" ++ (if withins ≤ 1 then "" else " " ++ toString (i + 1))))
    else []

/-- Embedding of the empty-branch arm of `makeBlockList_` (lines 540-547):
when a move is pending, the body section of a branch without a body offers
an insert control bound to the branch body connection, but only when
`checkConnection(bodyNode, this.blockJoiner.blockNode)` passes -- note the
second argument is the moving block node itself, not one of its
connections. -/
def emptyBranchBody (mov : Option MovCtx) (path : List Nat) (ifId : Nat)
    (text : String) : List RItem :=
  match mov with
  | Option.none => []
  | Option.some m =>
    if Linearization.checkConnectionB ⟨ConnKind.nextK, path⟩
        (Option.some (TLoc.blockLoc m.movId)) then
      [RItem.connItem ConnKind.nextK ifId ("Insert within " ++ text)]
    else []

/-- Embedding of the if-branch header of `makeIfBracketItem_`
(lines 1069-1097) as used from `makeBlockList_`: the `try` block evaluates
`checkConnection(condConnectionNode, blockNode.prev())`; with no pending
move `blockNode.prev()` throws and the `catch` produces the plain block
header; the else branch has no condition connection, so its header is
always the block header. -/
def ifCondHeader (mov : Option MovCtx) (path : List Nat) (ifId key : Nat) : RItem :=
  match mov with
  | Option.none => RItem.ifHeaderBlock ifId key
  | Option.some m =>
    if Linearization.checkConnectionB ⟨ConnKind.valK, path⟩ m.movPrev then
      RItem.ifHeaderConn ifId key
    else RItem.ifHeaderBlock ifId key

/-- The first value input among the children of a block, with its inline
child.  This is the `returnNode` search of `makeReturnItem_`
(lines 1303-1309): walk the children from the first input onward and take
the first whose parent input is value-typed. -/
def firstValChild : InputList → Option OptBlk
  | .nil => Option.none
  | .cons (.val c) _ => Option.some c
  | .cons (.stmt _) rest => firstValChild rest

/-- Embedding of `makeReturnItem_` (lines 1302-1325) as appended by
`makeBlockList_` (lines 558-563) to the body of a function-with-return
block: when the return value input holds a block, that block is rendered as
a full block item (the `return` text prefix of line 1313 alters only the
label); when it is empty and a move is pending,
`checkConnection(returnNode, blockNode.prev())` decides between the
insert-in-return control and the blank return text.  A host-built
function-with-return block always carries its return value input; a tree
without one would throw inside the source search and is rendered empty
here. -/
def makeReturnItem (mov : Option MovCtx) (path : List Nat) (id : Nat)
    (inputs : InputList) : List RItem :=
  match firstValChild inputs with
  | Option.some (OptBlk.some b) => [RItem.blockItem b.id]
  | Option.some OptBlk.none =>
    match mov with
    | Option.some m =>
      if Linearization.checkConnectionB ⟨ConnKind.valK, path⟩ m.movPrev then
        [RItem.connItem ConnKind.valK id "Insert in return"]
      else [RItem.textItem "return NOTHING"]
    | Option.none => [RItem.textItem "return NOTHING"]
  | Option.none => []

mutual

/-- Embedding of `makeBlockList_` (lines 487-582) for one block node.
Lines 488-495 prepare the end-of-construct label; lines 497-500 are the
guard -- the node type test is always satisfied here because
`collect(n => n.nextBlock())` and the body walks only produce BLOCK nodes,
`block.outputConnection && block.getParent()` is the output flag together
with the existence of a parent (every position except the head of a
top-level stack), and the root test compares the root block of the node
with the `rootBlock` parameter threaded from `makeStackItem_`.  Failing
nodes contribute the end label alone.  A `controls_if` block renders its
branch headers and branch bodies (lines 530-549); other blocks render the
main item, then the first nested body (lines 555-565) -- with the
return-value item of a function-with-return block appended to that body
(lines 558-563) -- or the inner-input insert list when a move is pending
and the block has children (lines 566-570); the end label and the trailing
next-connection item close the list (lines 573-579). -/
def renderBlk (mov : Option MovCtx) (rootId selfRoot : Nat) (path : List Nat)
    (pos : SeqPos) (hasNextSib : Bool) : Blk → List RItem
  | .mk id btype ut hasOut hasPrev hasNext inputs =>
    let endL : List RItem := endLabelOf btype ut
    if (hasOut && (pos != SeqPos.stackTop)) || (selfRoot != rootId) then endL
    else
      let first := (makePrevConnectionItem mov path pos id hasOut hasPrev).toList
      let final := (makeNextConnectionItem mov path hasNextSib id hasNext).toList
      if btype == "controls_if" then
        first ++ renderIf mov rootId selfRoot (id :: path) id 0 inputs ++ endL ++ final
      else
        let mainItems := first ++ [RItem.blockItem id]
        let bodyItems :=
          if hasFirstNested inputs then
            renderFirstBody mov rootId selfRoot (id :: path) inputs ++
              (if btype == "procedures_defreturn" then
                makeReturnItem mov (id :: path) id inputs
              else [])
          else if mov.isSome && !inputs.isNil then
            innerInputItems mov path id (stmtCount inputs)
          else []
        mainItems ++ bodyItems ++ endL ++ final

/-- The sibling walk `node.collect(n => n.nextBlock())` mapped through
`makeBlockList_` (lines 470-472 and 504-510): later siblings sit at
`midSeq`. -/
def renderSeq (mov : Option MovCtx) (rootId selfRoot : Nat) (path : List Nat)
    (pos : SeqPos) : BlkList → List RItem
  | .nil => []
  | .cons b rest =>
    renderBlk mov rootId selfRoot path pos (!rest.isNil) b ++
      renderSeq mov rootId selfRoot path SeqPos.midSeq rest

/-- The branch loop of `makeBlockList_` (lines 531-549) over the children of
an if block, following the pairing of `getIfBranches` (lines 1465-1497): the
children are consumed two at a time as (condition, body) pairs, a trailing
odd child is the else branch; `key` counts the branches.  The `path`
argument already contains the if block id, matching the ancestor chain of
every branch connection. -/
def renderIf (mov : Option MovCtx) (rootId selfRoot : Nat) (path : List Nat)
    (ifId key : Nat) : InputList → List RItem
  | .nil => []
  | .cons c .nil =>
    RItem.ifHeaderBlock ifId key :: renderIfBody mov rootId selfRoot path ifId "else" c
  | .cons _ (.cons d rest) =>
    let text := if key == 0 then "if" else "else if"
    ifCondHeader mov path ifId key ::
      (renderIfBody mov rootId selfRoot path ifId text d ++
        renderIf mov rootId selfRoot path ifId (key + 1) rest)

/-- The body section of one branch: a nonempty body renders through the
sibling walk (`generateInnerBody`, lines 504-510); an empty body defers to
the empty-branch arm (lines 540-547).  A value input in body position (not
produced by the host if block, kept for totality) holds at most its inline
child, which is what `bodyItem.next()` followed by the sibling walk would
produce there. -/
def renderIfBody (mov : Option MovCtx) (rootId selfRoot : Nat) (path : List Nat)
    (ifId : Nat) (text : String) : BInput → List RItem
  | .stmt (BlkList.cons b rest) =>
    renderBlk mov rootId selfRoot path SeqPos.bodyTop (!rest.isNil) b ++
      renderSeq mov rootId selfRoot path SeqPos.midSeq rest
  | .stmt BlkList.nil => emptyBranchBody mov path ifId text
  | .val (.some b) => renderBlk mov rootId selfRoot path SeqPos.bodyTop false b
  | .val .none => emptyBranchBody mov path ifId text

/-- The first nested body of a non-if block (`node.inBlock()` followed by
the sibling walk, lines 555-557): the first statement input holding a
nonempty sub-stack. -/
def renderFirstBody (mov : Option MovCtx) (rootId selfRoot : Nat) (path : List Nat) :
    InputList → List RItem
  | .nil => []
  | .cons (.stmt (BlkList.cons b rest)) _ =>
    renderBlk mov rootId selfRoot path SeqPos.bodyTop (!rest.isNil) b ++
      renderSeq mov rootId selfRoot path SeqPos.midSeq rest
  | .cons (.stmt BlkList.nil) rest => renderFirstBody mov rootId selfRoot path rest
  | .cons (.val _) rest => renderFirstBody mov rootId selfRoot path rest

end

/-- Embedding of `makeStackItem_` (lines 454-476): the first block of the
stack is the declared root block, and every block of the chain runs through
`makeBlockList_` with that root. -/
def makeStackItem (mov : Option MovCtx) (s : BlkList) : List RItem :=
  let rootId := match s with
    | .nil => 0
    | .cons b _ => b.id
  renderSeq mov rootId rootId [] SeqPos.stackTop s

/-- The stack loop of `makeWorkspaceView_` (lines 431-444) with the marker
threading of `makeStackItem_` (lines 457-458): each stack is paired with the
marker current when it is rendered, and the marker advances through
`nextStackMarker`. -/
def makeStacks (mov : Option MovCtx) (marker : List Nat) :
    List BlkList → List (List Nat × List RItem)
  | [] => []
  | s :: rest => (marker, makeStackItem mov s) :: makeStacks mov (nextStackMarker marker) rest

/-- Embedding of `makeWorkspaceView_` (lines 431-444): the stacks of the
workspace in order, starting from marker A. -/
def makeWorkspaceView (mov : Option MovCtx) (ws : List BlkList) :
    List (List Nat × List RItem) :=
  makeStacks mov [65] ws

/-! ## The specification side: which blocks a linearization must list -/

mutual

/-- The non-inline blocks of a (sub)tree rooted at one block, in render
order: the block itself followed by the contents of all its statement-input
bodies.  Inline value children are excluded. -/
def blkIds : Blk → List Nat
  | .mk id _ _ _ _ _ inputs => id :: inputsStmtIds inputs

/-- The non-inline blocks contributed by the children of a block: the
bodies of its statement inputs, in order. -/
def inputsStmtIds : InputList → List Nat
  | .nil => []
  | .cons (.stmt body) rest => seqIds body ++ inputsStmtIds rest
  | .cons (.val _) rest => inputsStmtIds rest

/-- The non-inline blocks of a block sequence. -/
def seqIds : BlkList → List Nat
  | .nil => []
  | .cons b rest => blkIds b ++ seqIds rest

end

/-- The block that one rendered item expands as a root-owned list entry:
a main block item owns its block, and the header of the first branch of an
if block stands for the if block itself (an if block renders one header per
branch instead of a separate main item). -/
def ownedOne : RItem → List Nat
  | .blockItem id => [id]
  | .ifHeaderBlock id key => if key = 0 then [id] else []
  | _ => []

/-- The blocks expanded as root-owned list entries by a rendered list, in
order. -/
def ownedIds (items : List RItem) : List Nat :=
  (items.map ownedOne).flatten

/-! ## Well-formed trees

Well-formedness captures the hypotheses of the workspace-listing claim:
statement-positioned blocks have no output connection (the host forbids a
block from carrying both a previous and an output connection, and a
statement position requires a previous connection); if blocks have the
children the host builds for them -- alternating (condition value input,
body statement input) pairs, at least one, with an optional trailing else
statement input; non-if blocks have at most one statement input (the
renderer walks only the first nested body) and are not function-with-return
blocks (whose return-value relocation lists an inline block and is outside
this claim). -/

mutual

def wfBlk : Blk → Bool
  | .mk _ btype _ _ _ _ inputs =>
    if btype == "controls_if" then wfIfInputs inputs
    else (btype != "procedures_defreturn") && decide (stmtCount inputs ≤ 1) && wfInputs inputs

def wfInputs : InputList → Bool
  | .nil => true
  | .cons (.val c) rest => wfOpt c && wfInputs rest
  | .cons (.stmt body) rest => wfSeq body && wfInputs rest

def wfOpt : OptBlk → Bool
  | .none => true
  | .some b => wfBlk b

def wfSeq : BlkList → Bool
  | .nil => true
  | .cons b rest => !b.hasOutput && wfBlk b && wfSeq rest

def wfIfInputs : InputList → Bool
  | .cons (.val c) (.cons (.stmt body) rest) => wfOpt c && wfSeq body && wfIfTail rest
  | _ => false

def wfIfTail : InputList → Bool
  | .nil => true
  | .cons (.stmt body) .nil => wfSeq body
  | .cons (.val c) (.cons (.stmt body) rest) => wfOpt c && wfSeq body && wfIfTail rest
  | _ => false

end

/-- A well-formed top-level stack: the head may be any block (a lone value
block dropped on the workspace is its own stack and has no parent), later
members are statement-connected. -/
def wfStack : BlkList → Bool
  | .nil => true
  | .cons b rest => wfBlk b && wfSeq rest

/-- A well-formed workspace: every stack is well-formed. -/
def wfWs (ws : List BlkList) : Bool := ws.all wfStack

/-! ## Ancestor chains of the tree -/

mutual

/-- Every block of a subtree together with its ancestor block chain
(starting at the block itself), the chain a cursor ascending from one of
the block connections reports. -/
def chainsBlk (path : List Nat) : Blk → List (Nat × List Nat)
  | .mk id _ _ _ _ _ inputs => (id, id :: path) :: chainsInputs (id :: path) inputs

def chainsInputs (path : List Nat) : InputList → List (Nat × List Nat)
  | .nil => []
  | .cons (.val c) rest => chainsOpt path c ++ chainsInputs path rest
  | .cons (.stmt body) rest => chainsSeq path body ++ chainsInputs path rest

def chainsOpt (path : List Nat) : OptBlk → List (Nat × List Nat)
  | .none => []
  | .some b => chainsBlk path b

def chainsSeq (path : List Nat) : BlkList → List (Nat × List Nat)
  | .nil => []
  | .cons b rest => chainsBlk path b ++ chainsSeq path rest

end

/-- The ancestor chains of all blocks of a workspace; stack predecessors
are siblings, not ancestors, so the stack contributes no chain entries of
its own. -/
def blockChains (ws : List BlkList) : List (Nat × List Nat) :=
  (ws.map (chainsSeq [])).flatten

/-! ## Remaining helper definitions -/

def Blk.untilText : Blk → String
  | .mk _ _ u _ _ _ _ => u

/-- The items a guard-failing node contributes in `makeBlockList_`: its
end-of-construct label when the block is a named nesting construct, nothing
otherwise (lines 497-500). -/
def endLabelItems (b : Blk) : List RItem :=
  endLabelOf b.btype b.untilText

namespace BlockJoiner

/-- The `back` direction chosen by `attemptConnection_` from the connection
node type (lines 152-170): NEXT and INPUT step back to `prev`, PREVIOUS and
OUTPUT step back to `next`. -/
def backOf (t : NType) (p : ANode) : Option ANode :=
  if t = NType.nextT ∨ t = NType.inputT then p.prev else p.next

end BlockJoiner

/-- The marker sequence produced by rendering `n` stacks starting from
marker `mk`. -/
def markersFrom (mk : List Nat) : Nat → List (List Nat)
  | 0 => []
  | n + 1 => mk :: markersFrom (nextStackMarker mk) n

/-! ## Concrete instances used by counterexamples and witnesses -/

/-- A leaf statement block with id 2. -/
def exBody : Blk := Blk.mk 2 "plain" "" false true true InputList.nil

/-- A three-branch conditional with id 1: branch bodies are the sub-stack
holding `exBody`, an empty elseif body, and an empty else body. -/
def exIf : Blk :=
  Blk.mk 1 "controls_if" "" false true true
    (InputList.cons (BInput.val OptBlk.none)
      (InputList.cons (BInput.stmt (BlkList.cons exBody BlkList.nil))
        (InputList.cons (BInput.val OptBlk.none)
          (InputList.cons (BInput.stmt BlkList.nil)
            (InputList.cons (BInput.stmt BlkList.nil) InputList.nil)))))

/-- A standalone statement block with id 9, the block being moved. -/
def exMover : Blk := Blk.mk 9 "plain" "" false true true InputList.nil

/-- A workspace with two stacks: the conditional and the mover. -/
def exWs : List BlkList := [BlkList.cons exIf BlkList.nil, BlkList.cons exMover BlkList.nil]

/-- The pending-move context for `exMover`: its id, its previous connection
and its next connection. -/
def exMov : MovCtx :=
  ⟨9, Option.some (TLoc.connLoc ConnKind.prevK 9), Option.some (TLoc.connLoc ConnKind.nextK 9)⟩

/-- A statement block with id 4, the body of the function-with-return
example. -/
def retBodyBlk : Blk := Blk.mk 4 "plain" "" false true true InputList.nil

/-- An output-connected value block with id 5, plugged into the return
value input of the function-with-return example. -/
def retValBlk : Blk := Blk.mk 5 "numblock" "" true false false InputList.nil

/-- A function-with-return block with id 3: a statement body holding
`retBodyBlk` and a return value input holding the inline `retValBlk`.  The
tree is acyclic with well-defined root ancestors, the well-formedness the
original claim assumes. -/
def defRetBlk : Blk :=
  Blk.mk 3 "procedures_defreturn" "" false false false
    (InputList.cons (BInput.stmt (BlkList.cons retBodyBlk BlkList.nil))
      (InputList.cons (BInput.val (OptBlk.some retValBlk)) InputList.nil))

/-- A workspace holding only the function-with-return stack. -/
def defRetWs : List BlkList := [BlkList.cons defRetBlk BlkList.nil]

/-- A non-if block with id 6 carrying two statement inputs, holding blocks
7 and 8; again acyclic with well-defined root ancestors. -/
def twoStmtBlk : Blk :=
  Blk.mk 6 "plain" "" false true true
    (InputList.cons (BInput.stmt (BlkList.cons (Blk.mk 7 "plain" "" false true true InputList.nil) BlkList.nil))
      (InputList.cons (BInput.stmt (BlkList.cons (Blk.mk 8 "plain" "" false true true InputList.nil) BlkList.nil))
        InputList.nil))

/-- A workspace holding only the two-statement-input stack. -/
def twoStmtWs : List BlkList := [BlkList.cons twoStmtBlk BlkList.nil]

/-- A two-block containment chain for the cycle counterexample: block 0
holds block 1 in its statement body. -/
def cycBInner : Blk := Blk.mk 1 "plain" "" false true true InputList.nil

/-- The outer block of the containment chain. -/
def cycBOuter : Blk :=
  Blk.mk 0 "plain" "" false true true
    (InputList.cons (BInput.stmt (BlkList.cons cycBInner BlkList.nil)) InputList.nil)

/-- The workspace holding the containment chain. -/
def cycWs : List BlkList := [BlkList.cons cycBOuter BlkList.nil]

/-- The cursor on the previous connection of block 0. -/
def cycPrevConn : ANode := ANode.mk NType.prevT (TLoc.connLoc ConnKind.prevK 0) Option.none Option.none

/-- The cursor on block 0, the block being moved. -/
def cycBlockNode : ANode :=
  ANode.mk NType.blockT (TLoc.blockLoc 0) (Option.some cycPrevConn)
    (Option.some (ANode.mk NType.nextT (TLoc.connLoc ConnKind.nextK 0) Option.none Option.none))

/-- The cursor on the next connection of block 1 -- a connection of a
descendant of the moving block. -/
def cycConnNode : ANode := ANode.mk NType.nextT (TLoc.connLoc ConnKind.nextK 1) Option.none Option.none

/-- The joiner state at the start of the cyclic service: the moving block 0
in the block slot, the descendant connection in the connection slot. -/
def cycJoiner : BlockJoiner.Joiner := ⟨Option.some cycBlockNode, Option.some cycConnNode⟩

/-- A cursor on a block with a next connection but no previous connection
(a hat block), id 7. -/
def hatNode : ANode :=
  ANode.mk NType.blockT (TLoc.blockLoc 7) Option.none
    (Option.some (ANode.mk NType.nextT (TLoc.connLoc ConnKind.nextK 7) Option.none Option.none))

/-- A cursor on a statement-input connection of block 3. -/
def inputConnNode : ANode :=
  ANode.mk NType.inputT (TLoc.connLoc ConnKind.nextK 3) Option.none Option.none

/-- The joiner state whose service dereferences the missing previous node of
the hat block. -/
def hatJoiner : BlockJoiner.Joiner := ⟨Option.some hatNode, Option.some inputConnNode⟩

/-- A cursor on a statement block with both sibling connections, id 5. -/
def stdBlockNode : ANode :=
  ANode.mk NType.blockT (TLoc.blockLoc 5)
    (Option.some (ANode.mk NType.prevT (TLoc.connLoc ConnKind.prevK 5) Option.none Option.none))
    (Option.some (ANode.mk NType.nextT (TLoc.connLoc ConnKind.nextK 5) Option.none Option.none))

/-- A cursor on the next connection of block 6. -/
def stdConnNode : ANode :=
  ANode.mk NType.nextT (TLoc.connLoc ConnKind.nextK 6) Option.none Option.none

/-- A serviceable joiner state: a statement block against a next
connection. -/
def stdJoiner : BlockJoiner.Joiner := ⟨Option.some stdBlockNode, Option.some stdConnNode⟩

/-- A cursor whose entity is a field, which `push` cannot classify. -/
def fieldItemNode : ANode :=
  ANode.mk NType.fieldT (TLoc.fieldLoc 4) Option.none Option.none

/-- A linearization state over an empty workspace with a live selection,
branch context, cooldown and both joiner slots occupied. -/
def emptyWsState : LinState :=
  ⟨[], "old nav", "old list", Option.some 3, Option.some 1, CoolVal.num 42,
    Option.some 5, Option.some 6⟩

/-- A fresh linearization state over a workspace holding blocks 1 and 2:
no selection, the cooldown at its initial value 0. -/
def freshState : LinState :=
  ⟨[1, 2], "", "", Option.none, Option.none, CoolVal.num 0, Option.none, Option.none⟩

/-! ## Lemmas about the stack-marker successor -/

theorem markerStep_fuel (f : Nat) (m : List Nat) (h : m.length ≤ f) :
    markerStep f m = markerStep m.length m := by
  induction f generalizing m with
  | zero =>
    cases m with
    | nil => rfl
    | cons c cs => simp at h
  | succ f ih =>
    cases m with
    | nil => rfl
    | cons c cs =>
      have hpre : (c :: cs).dropLast.length = cs.length := by
        simp [List.length_dropLast]
      have hle : (c :: cs).dropLast.length ≤ f := by
        rw [hpre]; exact Nat.le_of_succ_le_succ (by simpa using h)
      show markerStep (f + 1) (c :: cs) = markerStep (cs.length + 1) (c :: cs)
      simp only [markerStep]
      rw [ih _ hle, hpre]

theorem nextStackMarker_ne (m : List Nat) (h : m ≠ []) :
    nextStackMarker m =
      (if m.getLast h = 90 then
        (if m.dropLast.isEmpty then [65] else nextStackMarker m.dropLast) ++ [65]
      else m.dropLast ++ [m.getLast h + 1]) := by
  cases m with
  | nil => exact absurd rfl h
  | cons c cs =>
    show markerStep (cs.length + 1) (c :: cs) = _
    simp only [markerStep]
    rw [markerStep_fuel cs.length (c :: cs).dropLast (by simp [List.length_dropLast])]
    rfl

theorem nextStackMarker_ne_nil (m : List Nat) (h : m ≠ []) : nextStackMarker m ≠ [] := by
  rw [nextStackMarker_ne m h]
  split
  · simp
  · simp

theorem lexLt_append_lt (p : List Nat) (a b : Nat) (h : a < b) :
    lexLt (p ++ [a]) (p ++ [b]) = true := by
  induction p with
  | nil => simp [lexLt, h]
  | cons c cs ih => simpa [lexLt] using ih

theorem lexLt_append_keep (p : List Nat) (x : Nat) :
    ∀ (q : List Nat) (y : Nat), p.length = q.length → lexLt p q = true →
      lexLt (p ++ [x]) (q ++ [y]) = true := by
  induction p with
  | nil =>
    intro q y hlen hlex
    cases q with
    | nil => simp [lexLt] at hlex
    | cons d ds => simp at hlen
  | cons c cs ih =>
    intro q y hlen hlex
    cases q with
    | nil => simp at hlen
    | cons d ds =>
      simp only [lexLt] at hlex ⊢
      by_cases hcd : c < d
      · simp [hcd]
      · simp only [hcd, if_false] at hlex ⊢
        by_cases hdc : d < c
        · simp [hdc] at hlex
        · simp only [hdc, if_false] at hlex ⊢
          exact ih ds y (by simpa using hlen) hlex

theorem shortLexLt_nextStackMarker (m : List Nat) (h : m ≠ []) :
    shortLexLt m (nextStackMarker m) = true := by
  obtain ⟨pre, lastC, rfl⟩ : ∃ p c, m = p ++ [c] :=
    ⟨m.dropLast, m.getLast h, (List.dropLast_append_getLast h).symm⟩
  rw [nextStackMarker_ne (pre ++ [lastC]) h]
  have hlast : (pre ++ [lastC]).getLast h = lastC := by simp
  have hdrop : (pre ++ [lastC]).dropLast = pre := by simp
  rw [hlast, hdrop]
  by_cases h90 : lastC = 90
  · rw [if_pos h90]
    by_cases hpe : pre = []
    · rw [if_pos (by simp [hpe])]
      subst hpe
      simp [shortLexLt]
    · rw [if_neg (by simp [hpe])]
      have IH := shortLexLt_nextStackMarker pre hpe
      simp only [shortLexLt, Bool.or_eq_true, Bool.and_eq_true, decide_eq_true_eq] at IH ⊢
      rcases IH with hlt | ⟨heq, hlex⟩
      · left
        simp only [List.length_append, List.length_singleton]
        omega
      · right
        refine ⟨by simp only [List.length_append, List.length_singleton]; omega, ?_⟩
        exact lexLt_append_keep pre lastC (nextStackMarker pre) 65 heq hlex
  · rw [if_neg h90]
    simp only [shortLexLt, Bool.or_eq_true, Bool.and_eq_true, decide_eq_true_eq]
    right
    refine ⟨by simp, ?_⟩
    exact lexLt_append_lt pre lastC (lastC + 1) (Nat.lt_succ_self _)
termination_by m.length
decreasing_by
  simp_all

theorem markerAt_ne_nil (n : Nat) : markerAt n ≠ [] := by
  induction n with
  | zero => simp [markerAt]
  | succ n ih => exact nextStackMarker_ne_nil _ ih

theorem makeStacks_map_fst (ws : List BlkList) :
    ∀ (mov : Option MovCtx) (mk : List Nat),
      (makeStacks mov mk ws).map Prod.fst = markersFrom mk ws.length := by
  induction ws with
  | nil => intro mov mk; rfl
  | cons s rest ih =>
    intro mov mk
    simp only [makeStacks, List.map_cons, List.length_cons, markersFrom]
    rw [ih]

theorem markersFrom_markerAt (n : Nat) :
    ∀ k, markersFrom (markerAt k) n = (List.range n).map (fun i => markerAt (k + i)) := by
  induction n with
  | zero => intro k; rfl
  | succ n ih =>
    intro k
    have step : markersFrom (markerAt k) (n + 1) =
        markerAt k :: markersFrom (markerAt (k + 1)) n := rfl
    rw [step, ih (k + 1), List.range_succ_eq_map]
    simp only [List.map_cons, List.map_map]
    have hfun : ((fun i => markerAt (k + i)) ∘ Nat.succ) = fun i => markerAt (k + 1 + i) := by
      funext i
      simp only [Function.comp]
      congr 1
      omega
    rw [hfun]
    simp

/-! ## Claim C7: stack markers -/

/-- C7 counterexample: the marker assigned to the 26th stack is AA, the
successor of Z, yet AA precedes Z in lexicographic order -- the marker
sequence is not strictly increasing in plain lexicographic order at the
overflow step. -/
theorem C7_counterexample :
    markerAt 25 = [90] ∧ markerAt 26 = [65, 65] ∧ lexLt (markerAt 26) (markerAt 25) = true := by
  decide

/-- C7 (amended): the stack markers assigned in order by
`makeWorkspaceView_`, starting at A, are strictly increasing in shortlex
order (length first, then lexicographic), and the successor function carries
over the uppercase alphabet: the successor of Z is AA and the successor of
AZ is BA. -/
theorem C7_amended :
    (∀ (mov : Option MovCtx) (ws : List BlkList),
        (makeWorkspaceView mov ws).map Prod.fst = (List.range ws.length).map markerAt) ∧
    (∀ n, shortLexLt (markerAt n) (markerAt (n + 1)) = true) ∧
    nextStackMarker [90] = [65, 65] ∧ nextStackMarker [65, 90] = [66, 65] := by
  refine ⟨?_, ?_, by decide, by decide⟩
  · intro mov ws
    unfold makeWorkspaceView
    rw [makeStacks_map_fst ws mov [65]]
    have h0 : ([65] : List Nat) = markerAt 0 := rfl
    rw [h0, markersFrom_markerAt]
    simp
  · intro n
    exact shortLexLt_nextStackMarker _ (markerAt_ne_nil n)

/-! ## Claim C3: the debouncer -/

theorem notifyD_foldl_pending (es : List Nat) (h : es ≠ []) :
    ∀ d : Debouncer, (es.foldl notifyD d).pendingRenderEvent = Option.some (es.getLast h) := by
  induction es with
  | nil => exact absurd rfl h
  | cons e rest ih =>
    intro d
    cases rest with
    | nil => rfl
    | cons e2 r2 =>
      show ((e2 :: r2).foldl notifyD (notifyD d e)).pendingRenderEvent = _
      rw [ih (by simp) (notifyD d e)]
      rfl

theorem notifyD_foldl_rendered (es : List Nat) :
    ∀ d : Debouncer, (es.foldl notifyD d).rendered = d.rendered := by
  induction es with
  | nil => intro d; rfl
  | cons e rest ih =>
    intro d
    show ((rest).foldl notifyD (notifyD d e)).rendered = _
    rw [ih (notifyD d e)]
    rfl

theorem fireD_foldl_skip (es : List Nat) (d : Debouncer) (L : Nat)
    (hp : d.pendingRenderEvent = Option.some L) (hnot : L ∉ es) :
    es.foldl fireD d = d := by
  induction es with
  | nil => rfl
  | cons e rest ih =>
    have hne : L ≠ e := fun heq => hnot (by simp [heq])
    have hfd : fireD d e = d := by
      unfold fireD
      rw [hp]
      simp [hne]
    show rest.foldl fireD (fireD d e) = d
    rw [hfd]
    exact ih (fun hm => hnot (List.mem_cons_of_mem _ hm))

/-- C3: for every burst of one or more distinct change notifications all
arriving inside the debounce window (every `notify` runs before any timer
fires), exactly one render executes and it uses the last event of the
burst; moreover a timer firing when the latest recorded event is not the
one it was scheduled with performs no work at all. -/
theorem C3_theorem (es : List Nat) (h : es ≠ []) (hnd : es.Nodup) :
    (runBurst es).rendered = [es.getLast h] ∧
    (∀ (d : Debouncer) (e : Nat), d.pendingRenderEvent ≠ Option.some e → fireD d e = d) := by
  constructor
  · unfold runBurst
    have hsplit : es.dropLast ++ [es.getLast h] = es := List.dropLast_append_getLast h
    have hpend := notifyD_foldl_pending es h (⟨Option.none, []⟩ : Debouncer)
    have hrend := notifyD_foldl_rendered es (⟨Option.none, []⟩ : Debouncer)
    have hnotmem : es.getLast h ∉ es.dropLast := by
      have hd := hnd
      rw [← hsplit] at hd
      have hdisj := List.disjoint_of_nodup_append hd
      intro hm
      exact hdisj hm (by simp)
    set d0 := es.foldl notifyD ⟨Option.none, []⟩ with hd0
    conv_lhs => rw [← hsplit]
    rw [List.foldl_append, fireD_foldl_skip es.dropLast d0 (es.getLast h) hpend hnotmem]
    show ((es.getLast h :: []).foldl fireD d0).rendered = _
    show (fireD d0 (es.getLast h)).rendered = _
    unfold fireD
    rw [hpend]
    simp [hrend]
  · intro d e hne
    unfold fireD
    rw [if_neg hne]

/-- C3 witness: the burst 1, 2, 3 renders exactly once, with event 3, and a
stale timer is a no-op. -/
theorem C3_witness :
    (runBurst [1, 2, 3]).rendered = [3] ∧
    fireD ⟨Option.some 2, []⟩ 1 = ⟨Option.some 2, []⟩ :=
  ⟨(C3_theorem [1, 2, 3] (by decide) (by decide)).1,
   (C3_theorem [1, 2, 3] (by decide) (by decide)).2 ⟨Option.some 2, []⟩ 1 (by decide)⟩

/-! ## Claim C5: the selection cooldown -/

/-- C5 exhibits the divergence of `alterSelectedWithEvent_` from the
specified cooldown behavior on a concrete run: block 1 is created at time
10 (the cooldown deadline becomes 110 and block 1 is selected); a move of
block 2 arrives at time 60, inside the cooldown window, yet the code
computes `cooldown_ = (110 < 60) = false` and proceeds to select block 2;
a move of block 2 arriving at time 300, after the window, computes
`cooldown_ = (110 < 300) = true` and is skipped, leaving block 1
selected. -/
theorem C5_code_bug :
    ((alterSelectedWithEvent 10 (WsEvent.blockCreate 1) freshState).selected = Option.some 1) ∧
    ((alterSelectedWithEvent 60 (WsEvent.blockMove 2)
        (alterSelectedWithEvent 10 (WsEvent.blockCreate 1) freshState)).selected =
      Option.some 2) ∧
    ((alterSelectedWithEvent 300 (WsEvent.blockMove 2)
        (alterSelectedWithEvent 10 (WsEvent.blockCreate 1) freshState)).selected =
      Option.some 1) := by
  decide

/-! ## Claim C9: the empty-workspace render -/

/-- C9: a render on a workspace with zero blocks replaces the breadcrumb
area with the empty-workspace placeholder, empties the main list, and
returns without processing the triggering event: the selection, the branch
context, the cooldown, and both BlockJoiner slots are unchanged. -/
theorem C9_theorem (st : LinState) (e : Option WsEvent) (now : Nat) (h : st.blocks = []) :
    (generateList now st e).parentNavHTML = "(empty workspace)" ∧
    (generateList now st e).mainNavHTML = "" ∧
    (generateList now st e).selected = st.selected ∧
    (generateList now st e).selectedBranch = st.selectedBranch ∧
    (generateList now st e).cooldown = st.cooldown ∧
    (generateList now st e).joinerBlockSlot = st.joinerBlockSlot ∧
    (generateList now st e).joinerConnSlot = st.joinerConnSlot := by
  simp [generateList, h]

/-- C9 witness: the empty-workspace state with a live selection, branch,
cooldown and occupied joiner slots is left intact by a render triggered by
a move event. -/
theorem C9_witness :
    (generateList 5 emptyWsState (Option.some (WsEvent.blockMove 2))).parentNavHTML =
        "(empty workspace)" ∧
    (generateList 5 emptyWsState (Option.some (WsEvent.blockMove 2))).selected =
        emptyWsState.selected ∧
    (generateList 5 emptyWsState (Option.some (WsEvent.blockMove 2))).joinerBlockSlot =
        emptyWsState.joinerBlockSlot :=
  ⟨(C9_theorem emptyWsState (Option.some (WsEvent.blockMove 2)) 5 rfl).1,
   (C9_theorem emptyWsState (Option.some (WsEvent.blockMove 2)) 5 rfl).2.2.1,
   (C9_theorem emptyWsState (Option.some (WsEvent.blockMove 2)) 5 rfl).2.2.2.2.2.1⟩

/-! ## Claim C10: totality of the connection check -/

/-- C10: for every pair of arguments, `checkConnection` returns a boolean
and never propagates an exception; whenever the host type test throws the
result is `false`; and the result is `true` only when the candidate is a
connection whose source block does not occur among the ancestor blocks of
the target connection. -/
theorem C10_theorem (conn : LinConnNode) (blockConn : Option TLoc) :
    (Linearization.checkConnection conn blockConn).isOk = true ∧
    (∀ t, blockConn = Option.some t → (hostCheckConnection conn.kind t).isOk = false →
        Linearization.checkConnection conn blockConn = Except.ok false) ∧
    (Linearization.checkConnection conn blockConn = Except.ok true →
        ∃ k s, blockConn = Option.some (TLoc.connLoc k s) ∧
          conn.ancestorBlockIds.contains s = false) := by
  cases blockConn with
  | none =>
    refine ⟨rfl, ?_, ?_⟩
    · intro t ht
      exact absurd ht (by simp)
    · intro habs
      simp [Linearization.checkConnection] at habs
  | some t =>
    cases t with
    | blockLoc bid =>
      refine ⟨rfl, ?_, ?_⟩
      · intro t ht hOk
        rfl
      · intro habs
        simp [Linearization.checkConnection, hostCheckConnection] at habs
    | connLoc k s =>
      by_cases hc : compatKind conn.kind k
      · refine ⟨?_, ?_, ?_⟩
        · simp [Linearization.checkConnection, hostCheckConnection, hc, Except.isOk,
            Except.toBool]
        · intro t ht hOk
          rw [Option.some_inj] at ht
          subst ht
          simp [hostCheckConnection, hc, Except.isOk, Except.toBool] at hOk
        · intro htrue
          refine ⟨k, s, rfl, ?_⟩
          simp [Linearization.checkConnection, hostCheckConnection, hc] at htrue
          simpa using htrue
      · refine ⟨?_, ?_, ?_⟩
        · simp [Linearization.checkConnection, hostCheckConnection, hc, Except.isOk,
            Except.toBool]
        · intro t ht hOk
          simp [Linearization.checkConnection, hostCheckConnection, hc]
        · intro habs
          simp [Linearization.checkConnection, hostCheckConnection, hc] at habs
    | fieldLoc fs =>
      refine ⟨rfl, ?_, ?_⟩
      · intro t ht hOk
        rfl
      · intro habs
        simp [Linearization.checkConnection, hostCheckConnection] at habs

/-- C10 witness: a compatible pair yields `ok true` and the theorem then
reports the candidate as a connection whose source block avoids the
ancestor chain; a block-shaped candidate (the host test throws) yields
`ok false`. -/
theorem C10_witness :
    ((Linearization.checkConnection ⟨ConnKind.nextK, [1, 2]⟩
        (Option.some (TLoc.connLoc ConnKind.prevK 7))).isOk = true) ∧
    (∃ k s, (Option.some (TLoc.connLoc ConnKind.prevK 7) : Option TLoc) =
        Option.some (TLoc.connLoc k s) ∧
        (([1, 2] : List Nat).contains s = false)) ∧
    (Linearization.checkConnection ⟨ConnKind.nextK, [1, 2]⟩
        (Option.some (TLoc.blockLoc 9)) = Except.ok false) :=
  ⟨(C10_theorem ⟨ConnKind.nextK, [1, 2]⟩ (Option.some (TLoc.connLoc ConnKind.prevK 7))).1,
   (C10_theorem ⟨ConnKind.nextK, [1, 2]⟩ (Option.some (TLoc.connLoc ConnKind.prevK 7))).2.2 rfl,
   (C10_theorem ⟨ConnKind.nextK, [1, 2]⟩ (Option.some (TLoc.blockLoc 9))).2.1
     (TLoc.blockLoc 9) rfl rfl⟩

/-! ## Claim C1: the cycle-safety check -/

/-- C1 counterexample: with the moving block 0 in the block slot and a
connection of its own descendant (block 1, held in the body of block 0) in
the connection slot, the service run of `attemptConnection_` does invoke
the host-level connect -- connecting the descendant connection to the
moving block -- and ends in the defensive reload, instead of rejecting the
move as a no-op before any connect: the ancestor chain of the target
connection, `[1, 0]`, contains the moving block 0. -/
theorem C1_counterexample :
    ((blockChains cycWs).lookup 1 = Option.some [1, 0]) ∧
    (([1, 0] : List Nat).contains 0 = true) ∧
    ((BlockJoiner.attemptConnection BlockJoiner.ConnectOutcome.domError cycJoiner).eff.connected =
        [(TLoc.connLoc ConnKind.nextK 1, TLoc.connLoc ConnKind.prevK 0)]) ∧
    ((BlockJoiner.attemptConnection BlockJoiner.ConnectOutcome.domError cycJoiner).eff.reloaded =
        true) ∧
    ((BlockJoiner.attemptConnection BlockJoiner.ConnectOutcome.domError cycJoiner).threw =
        false) :=
  ⟨rfl, rfl, rfl, rfl, rfl⟩

/-- C1 (amended): the service step performs no ancestor walk: whenever both
slots are filled with a connection-typed target whose required sibling node
exists, it attempts exactly one host-level connect -- cyclic move or not --
relying on the caught-exception path for protection (the C1 counterexample
instantiates this at a cyclic configuration).  The ancestor walk of the
claim exists only in `Blockly.Linearization.checkConnection`, which returns
`false` for any target connection whose ancestor BLOCK chain contains the
source block of the candidate connection -- whether or not the host type
test passes -- and thereby suppresses exactly those insert controls whose
construction consults it. -/
theorem C1_amended :
    (∀ (conn : LinConnNode) (k : ConnKind) (s : Nat),
        conn.ancestorBlockIds.contains s = true →
        Linearization.checkConnection conn (Option.some (TLoc.connLoc k s)) =
          Except.ok false) ∧
    (∀ (j : BlockJoiner.Joiner) (p c : ANode) (outcome : BlockJoiner.ConnectOutcome),
        j.blockNode = Option.some p → j.connectionNode = Option.some c →
        (c.getType = NType.nextT ∨ c.getType = NType.inputT ∨
          c.getType = NType.prevT ∨ c.getType = NType.outputT) →
        (BlockJoiner.backOf c.getType p).isSome = true →
        (BlockJoiner.attemptConnection outcome j).eff.connected.length = 1) := by
  constructor
  · intro conn k s h
    have hmem : s ∈ conn.ancestorBlockIds := by
      simpa using h
    by_cases hc : compatKind conn.kind k <;>
      simp [Linearization.checkConnection, hostCheckConnection, hc, hmem]
  · intro j p c outcome hb hc ht hback
    rcases ht with ht | ht | ht | ht
    all_goals simp only [BlockJoiner.backOf, ht] at hback
    all_goals simp at hback
    all_goals obtain ⟨bn, hbn⟩ := Option.isSome_iff_exists.mp hback
    all_goals simp [BlockJoiner.attemptConnection, hb, hc, ht, hbn]

/-- C1 witness: the rejection at a connection whose ancestor chain holds
the candidate's source block, and the single connect attempted by the
cyclic service configuration of the counterexample. -/
theorem C1_amended_witness :
    (([1, 0] : List Nat).contains 0 = true ∧
      Linearization.checkConnection ⟨ConnKind.nextK, [1, 0]⟩
        (Option.some (TLoc.connLoc ConnKind.prevK 0)) = Except.ok false) ∧
    (BlockJoiner.attemptConnection BlockJoiner.ConnectOutcome.domError
        cycJoiner).eff.connected.length = 1 :=
  ⟨⟨by decide, C1_amended.1 ⟨ConnKind.nextK, [1, 0]⟩ ConnKind.prevK 0 (by decide)⟩,
   C1_amended.2 cycJoiner cycBlockNode cycConnNode BlockJoiner.ConnectOutcome.domError
     rfl rfl (Or.inl rfl) rfl⟩

/-! ## Claim C2: slot clearing -/

/-- C2 counterexample: a service run starting with both slots occupied --
the block slot holding a block with no previous connection (a hat block)
and the connection slot holding a statement-input connection -- throws at
the `back(provided).getLocation()` dereference before any host call, and
both slots survive the run: partial slot state persists. -/
theorem C2_counterexample :
    ((BlockJoiner.attemptConnection BlockJoiner.ConnectOutcome.success hatJoiner).threw = true) ∧
    ((BlockJoiner.attemptConnection BlockJoiner.ConnectOutcome.success
        hatJoiner).joiner.blockNode.isSome = true) ∧
    ((BlockJoiner.attemptConnection BlockJoiner.ConnectOutcome.success
        hatJoiner).joiner.connectionNode.isSome = true) ∧
    ((BlockJoiner.attemptConnection BlockJoiner.ConnectOutcome.success
        hatJoiner).eff.connected = []) :=
  ⟨rfl, rfl, rfl, rfl⟩

/-- C2 (amended): for every service run starting with both slots occupied,
where the connection slot holds a connection-typed node and the block
slot's node has the sibling connection required by the service direction
(the previous node for NEXT or INPUT targets, the next node for PREVIOUS
or OUTPUT targets), both slots are empty when the run returns,
whether the host connect succeeds, throws a benign mismatch, or throws the
`DOMException` that forces the reload; if that sibling node is missing the
run throws before the connect and both slots survive (see the
counterexample). -/
theorem C2_amended (j : BlockJoiner.Joiner) (p c : ANode)
    (outcome : BlockJoiner.ConnectOutcome)
    (hb : j.blockNode = Option.some p) (hc : j.connectionNode = Option.some c)
    (ht : c.getType = NType.nextT ∨ c.getType = NType.inputT ∨
        c.getType = NType.prevT ∨ c.getType = NType.outputT)
    (hback : (BlockJoiner.backOf c.getType p).isSome = true) :
    (BlockJoiner.attemptConnection outcome j).joiner.blockNode = Option.none ∧
    (BlockJoiner.attemptConnection outcome j).joiner.connectionNode = Option.none ∧
    (BlockJoiner.attemptConnection outcome j).threw = false := by
  rcases ht with ht | ht | ht | ht
  all_goals simp only [BlockJoiner.backOf, ht] at hback
  all_goals simp at hback
  all_goals obtain ⟨bn, hbn⟩ := Option.isSome_iff_exists.mp hback
  all_goals simp [BlockJoiner.attemptConnection, hb, hc, ht, hbn]

/-- C2 witness: the serviceable joiner (statement block 5 against the next
connection of block 6) clears both slots without a throw. -/
theorem C2_amended_witness :
    (BlockJoiner.attemptConnection BlockJoiner.ConnectOutcome.success
        stdJoiner).joiner.blockNode = Option.none ∧
    (BlockJoiner.attemptConnection BlockJoiner.ConnectOutcome.success
        stdJoiner).joiner.connectionNode = Option.none ∧
    (BlockJoiner.attemptConnection BlockJoiner.ConnectOutcome.success
        stdJoiner).threw = false :=
  C2_amended stdJoiner stdBlockNode stdConnNode BlockJoiner.ConnectOutcome.success
    rfl rfl (Or.inl rfl) rfl

/-! ## Claim C6: push classification -/

/-- C6: `push` classifies its item by the entity it points to.  A
block-located item is stored in the block slot, overwriting any previous
occupant and leaving the connection slot as it was, the push returns `true`
and immediately runs the service step on the stored state; a
connection-located item symmetrically lands in the connection slot; any
other item makes the push return `false` with both slots and the host
untouched. -/
theorem C6_theorem (j : BlockJoiner.Joiner) (item : ANode)
    (outcome : BlockJoiner.ConnectOutcome) :
    (∀ bid, item.getLocation = TLoc.blockLoc bid →
        BlockJoiner.pushClassify j item =
          Option.some { j with blockNode := Option.some item } ∧
        BlockJoiner.push outcome j item =
          (true, BlockJoiner.attemptConnection outcome
            { j with blockNode := Option.some item })) ∧
    (∀ k s, item.getLocation = TLoc.connLoc k s →
        BlockJoiner.pushClassify j item =
          Option.some { j with connectionNode := Option.some item } ∧
        BlockJoiner.push outcome j item =
          (true, BlockJoiner.attemptConnection outcome
            { j with connectionNode := Option.some item })) ∧
    (∀ fid, item.getLocation = TLoc.fieldLoc fid →
        BlockJoiner.push outcome j item = (false, ⟨j, BlockJoiner.noEffects, false⟩)) := by
  refine ⟨?_, ?_, ?_⟩
  · intro bid h
    constructor <;> simp [BlockJoiner.push, BlockJoiner.pushClassify, h]
  · intro k s h
    constructor <;> simp [BlockJoiner.push, BlockJoiner.pushClassify, h]
  · intro fid h
    simp [BlockJoiner.push, BlockJoiner.pushClassify, h]

/-- C6 witness: against an already fully occupied joiner, a block item
overwrites the block slot, a connection item overwrites the connection
slot, and a field item is rejected with the state untouched. -/
theorem C6_witness :
    (BlockJoiner.pushClassify stdJoiner cycBlockNode =
        Option.some { stdJoiner with blockNode := Option.some cycBlockNode }) ∧
    (BlockJoiner.pushClassify stdJoiner cycConnNode =
        Option.some { stdJoiner with connectionNode := Option.some cycConnNode }) ∧
    (BlockJoiner.push BlockJoiner.ConnectOutcome.success stdJoiner fieldItemNode =
        (false, ⟨stdJoiner, BlockJoiner.noEffects, false⟩)) :=
  ⟨((C6_theorem stdJoiner cycBlockNode BlockJoiner.ConnectOutcome.success).1 0 rfl).1,
   ((C6_theorem stdJoiner cycConnNode BlockJoiner.ConnectOutcome.success).2.1
      ConnKind.nextK 1 rfl).1,
   (C6_theorem stdJoiner fieldItemNode BlockJoiner.ConnectOutcome.success).2.2 4 rfl⟩

/-! ## Claim C8: the empty-branch insert control -/

/-- C8 exhibits the divergence of `makeBlockList_` from the specified
empty-branch behavior at a concrete input: the workspace holds a
three-branch conditional (id 1, if/elseif/else, else body empty) and a
standalone compatible statement block (id 9) whose move is pending.  The
claim requires the else body section to offer an insert control bound to
the else body connection, yet the rendered workspace view contains no such
control anywhere: line 543 passes the moving block node itself -- not one
of its connections -- to `checkConnection`, whose host type test therefore
throws, yielding `false`.  The last two conjuncts isolate the slip: the
very check that rejects the block-shaped argument would accept the moving
block's previous connection, the argument every sibling call site
passes. -/
theorem C8_code_bug :
    wfWs exWs = true ∧
    (RItem.connItem ConnKind.nextK 1 "Insert within else" ∉
        ((makeWorkspaceView (Option.some exMov) exWs).map Prod.snd).flatten) ∧
    (Linearization.checkConnectionB ⟨ConnKind.nextK, [1]⟩
        (Option.some (TLoc.blockLoc 9)) = false) ∧
    (Linearization.checkConnectionB ⟨ConnKind.nextK, [1]⟩
        (Option.some (TLoc.connLoc ConnKind.prevK 9)) = true) := by
  refine ⟨by decide, by decide, rfl, rfl⟩

/-! ## Lemmas for the workspace-listing claim -/

theorem ownedIds_nil : ownedIds [] = [] := rfl

theorem ownedIds_cons (x : RItem) (l : List RItem) :
    ownedIds (x :: l) = ownedOne x ++ ownedIds l := by
  simp [ownedIds]

theorem ownedIds_append (a b : List RItem) :
    ownedIds (a ++ b) = ownedIds a ++ ownedIds b := by
  simp [ownedIds]

theorem makePrevConnectionItem_none (path : List Nat) (pos : SeqPos) (id : Nat)
    (ho hp : Bool) : makePrevConnectionItem Option.none path pos id ho hp = Option.none := rfl

theorem makeNextConnectionItem_none (path : List Nat) (hns : Bool) (id : Nat)
    (hn : Bool) : makeNextConnectionItem Option.none path hns id hn = Option.none := rfl

theorem innerInputItems_none (path : List Nat) (id w : Nat) :
    innerInputItems Option.none path id w = [] := rfl

theorem emptyBranchBody_none (path : List Nat) (ifId : Nat) (text : String) :
    emptyBranchBody Option.none path ifId text = [] := rfl

theorem ifCondHeader_none (path : List Nat) (ifId key : Nat) :
    ifCondHeader Option.none path ifId key = RItem.ifHeaderBlock ifId key := rfl

theorem inputsStmtIds_of_stmtCount_zero :
    ∀ ins : InputList, stmtCount ins = 0 → inputsStmtIds ins = []
  | .nil, _ => rfl
  | .cons (.val _) rest, h => by
    simp only [stmtCount] at h
    simp [inputsStmtIds, inputsStmtIds_of_stmtCount_zero rest h]
  | .cons (.stmt _) rest, h => by
    simp [stmtCount] at h

theorem inputsStmtIds_of_not_nested :
    ∀ ins : InputList, hasFirstNested ins = false → inputsStmtIds ins = []
  | .nil, _ => rfl
  | .cons (.val _) rest, h => by
    simp only [hasFirstNested] at h
    simp [inputsStmtIds, inputsStmtIds_of_not_nested rest h]
  | .cons (.stmt BlkList.nil) rest, h => by
    simp only [hasFirstNested] at h
    simp [inputsStmtIds, seqIds, inputsStmtIds_of_not_nested rest h]
  | .cons (.stmt (BlkList.cons _ _)) rest, h => by
    simp [hasFirstNested] at h

theorem ownedIds_endLabelOf (btype ut : String) : ownedIds (endLabelOf btype ut) = [] := by
  unfold endLabelOf
  cases getNestingBlockName btype ut <;> simp [ownedIds, ownedOne]

theorem wfIfInputs_shape :
    ∀ ins : InputList, wfIfInputs ins = true →
      ∃ c body rest, ins = InputList.cons (BInput.val c) (InputList.cons (BInput.stmt body) rest) ∧
        wfOpt c = true ∧ wfSeq body = true ∧ wfIfTail rest = true
  | .cons (.val c) (.cons (.stmt body) rest), h => by
    refine ⟨c, body, rest, rfl, ?_⟩
    simpa [wfIfInputs, Bool.and_eq_true, and_assoc] using h
  | .nil, h => by simp [wfIfInputs] at h
  | .cons (.val _) .nil, h => by simp [wfIfInputs] at h
  | .cons (.val _) (.cons (.val _) _), h => by simp [wfIfInputs] at h
  | .cons (.stmt _) _, h => by simp [wfIfInputs] at h

mutual

theorem ownedRenderBlk :
    ∀ (b : Blk) (r : Nat) (path : List Nat) (pos : SeqPos) (hns : Bool),
      wfBlk b = true → (pos = SeqPos.stackTop ∨ b.hasOutput = false) →
      ownedIds (renderBlk Option.none r r path pos hns b) = blkIds b
  | .mk id btype ut hasOut hasPrev hasNext inputs, r, path, pos, hns, hwf, hpos => by
    have hguard : ((hasOut && (pos != SeqPos.stackTop)) || (r != r)) = false := by
      rcases hpos with h | h
      · simp [h]
      · simp only [Blk.hasOutput] at h
        simp [h]
    by_cases hIf : (btype == "controls_if") = true
    · have hwfIf : wfIfInputs inputs = true := by
        simpa only [wfBlk, hIf, if_true] using hwf
      obtain ⟨c, body, rest, hins, hc, hbody, htail⟩ := wfIfInputs_shape inputs hwfIf
      subst hins
      simp only [renderBlk, hguard, Bool.false_eq_true, if_false, hIf, if_true,
        makePrevConnectionItem_none, makeNextConnectionItem_none, Option.toList_none,
        renderIf, ifCondHeader_none, List.nil_append, List.append_nil]
      simp only [ownedIds_append, ownedIds_cons, ownedIds_endLabelOf]
      rw [ownedRenderBody body r (id :: path) id
        (if (0 : Nat) == 0 then "if" else "else if") hbody]
      rw [ownedRenderIfTail rest r (id :: path) id 1 htail (by decide)]
      simp [ownedOne, blkIds, inputsStmtIds, ownedIds]
    · have hwfE : (btype != "procedures_defreturn") = true ∧
          stmtCount inputs ≤ 1 ∧ wfInputs inputs = true := by
        have h2 := hwf
        simp only [wfBlk, hIf, if_false] at h2
        simpa [Bool.and_eq_true, decide_eq_true_eq, and_assoc] using h2
      simp only [renderBlk, hguard, Bool.false_eq_true, if_false, hIf,
        makePrevConnectionItem_none, makeNextConnectionItem_none, Option.toList_none,
        innerInputItems_none, List.nil_append, List.append_nil]
      by_cases hFN : hasFirstNested inputs = true
      · have hnd : (btype == "procedures_defreturn") = false := by
          simpa using hwfE.1
        simp only [hFN, if_true, hnd, Bool.false_eq_true, if_false, List.append_nil]
        simp only [ownedIds_append, ownedIds_cons, ownedIds_endLabelOf, ownedOne]
        rw [ownedRenderFirstBody inputs r (id :: path) hwfE.2.2 hwfE.2.1]
        simp [blkIds, ownedIds, ownedOne]
      · have hFN2 : hasFirstNested inputs = false := by simpa using hFN
        simp only [hFN2, Bool.false_eq_true, if_false, Option.isSome_none,
          Bool.false_and]
        simp only [ownedIds_append, ownedIds_cons, ownedIds_endLabelOf, ownedOne]
        rw [blkIds, inputsStmtIds_of_not_nested inputs hFN2]
        simp [ownedIds, ownedOne]

theorem ownedRenderSeq :
    ∀ (s : BlkList) (r : Nat) (path : List Nat) (pos : SeqPos),
      wfSeq s = true →
      ownedIds (renderSeq Option.none r r path pos s) = seqIds s
  | .nil, _, _, _, _ => rfl
  | .cons b rest, r, path, pos, hwf => by
    have hparts : b.hasOutput = false ∧ wfBlk b = true ∧ wfSeq rest = true := by
      have h2 := hwf
      simp only [wfSeq, Bool.and_eq_true, Bool.not_eq_true'] at h2
      exact ⟨h2.1.1, h2.1.2, h2.2⟩
    simp only [renderSeq, ownedIds_append]
    rw [ownedRenderBlk b r path pos (!rest.isNil) hparts.2.1 (Or.inr hparts.1)]
    rw [ownedRenderSeq rest r path SeqPos.midSeq hparts.2.2]
    rfl

theorem ownedRenderBody :
    ∀ (body : BlkList) (r : Nat) (path : List Nat) (ifId : Nat) (text : String),
      wfSeq body = true →
      ownedIds (renderIfBody Option.none r r path ifId text (.stmt body)) = seqIds body
  | .nil, _, _, _, _, _ => rfl
  | .cons b rest, r, path, ifId, text, hwf => by
    have hparts : b.hasOutput = false ∧ wfBlk b = true ∧ wfSeq rest = true := by
      have h2 := hwf
      simp only [wfSeq, Bool.and_eq_true, Bool.not_eq_true'] at h2
      exact ⟨h2.1.1, h2.1.2, h2.2⟩
    simp only [renderIfBody, ownedIds_append]
    rw [ownedRenderBlk b r path SeqPos.bodyTop (!rest.isNil) hparts.2.1 (Or.inr hparts.1)]
    rw [ownedRenderSeq rest r path SeqPos.midSeq hparts.2.2]
    rfl

theorem ownedRenderIfTail :
    ∀ (ins : InputList) (r : Nat) (path : List Nat) (ifId key : Nat),
      wfIfTail ins = true → key ≠ 0 →
      ownedIds (renderIf Option.none r r path ifId key ins) = inputsStmtIds ins
  | .nil, _, _, _, _, _, _ => rfl
  | .cons (.stmt body) .nil, r, path, ifId, key, hwf, hkey => by
    have hbody : wfSeq body = true := by simpa [wfIfTail] using hwf
    simp only [renderIf, ownedIds_cons, ownedOne]
    rw [ownedRenderBody body r path ifId "else" hbody]
    simp [hkey, inputsStmtIds, ownedIds]
  | .cons (.val c) (.cons (.stmt body) rest), r, path, ifId, key, hwf, hkey => by
    have hparts : wfOpt c = true ∧ wfSeq body = true ∧ wfIfTail rest = true := by
      simpa [wfIfTail, Bool.and_eq_true, and_assoc] using hwf
    simp only [renderIf, ifCondHeader_none, ownedIds_cons, ownedIds_append, ownedOne]
    rw [ownedRenderBody body r path ifId (if key == 0 then "if" else "else if") hparts.2.1]
    rw [ownedRenderIfTail rest r path ifId (key + 1) hparts.2.2 (by omega)]
    simp [hkey, inputsStmtIds]
  | .cons (.stmt _) (.cons _ _), _, _, _, _, hwf, _ => by
    simp [wfIfTail] at hwf
  | .cons (.val _) .nil, _, _, _, _, hwf, _ => by
    simp [wfIfTail] at hwf
  | .cons (.val _) (.cons (.val _) _), _, _, _, _, hwf, _ => by
    simp [wfIfTail] at hwf

theorem ownedRenderFirstBody :
    ∀ (ins : InputList) (r : Nat) (path : List Nat),
      wfInputs ins = true → stmtCount ins ≤ 1 →
      ownedIds (renderFirstBody Option.none r r path ins) = inputsStmtIds ins
  | .nil, _, _, _, _ => rfl
  | .cons (.stmt (BlkList.cons b bs)) rest, r, path, hwf, hcnt => by
    have hparts : wfSeq (BlkList.cons b bs) = true ∧ wfInputs rest = true := by
      simpa [wfInputs, Bool.and_eq_true] using hwf
    have hbody : b.hasOutput = false ∧ wfBlk b = true ∧ wfSeq bs = true := by
      have h2 := hparts.1
      simp only [wfSeq, Bool.and_eq_true, Bool.not_eq_true'] at h2
      exact ⟨h2.1.1, h2.1.2, h2.2⟩
    have hrest0 : stmtCount rest = 0 := by
      simp only [stmtCount] at hcnt
      omega
    simp only [renderFirstBody, ownedIds_append]
    rw [ownedRenderBlk b r path SeqPos.bodyTop (!bs.isNil) hbody.2.1 (Or.inr hbody.1)]
    rw [ownedRenderSeq bs r path SeqPos.midSeq hbody.2.2]
    simp [inputsStmtIds, seqIds, inputsStmtIds_of_stmtCount_zero rest hrest0]
  | .cons (.stmt BlkList.nil) rest, r, path, hwf, hcnt => by
    have hparts : wfInputs rest = true := by
      simpa [wfInputs, wfSeq, Bool.and_eq_true] using hwf
    have hcnt2 : stmtCount rest ≤ 1 := by
      simp only [stmtCount] at hcnt
      omega
    simp only [renderFirstBody]
    rw [ownedRenderFirstBody rest r path hparts hcnt2]
    simp [inputsStmtIds, seqIds]
  | .cons (.val c) rest, r, path, hwf, hcnt => by
    have hparts : wfInputs rest = true := by
      have h2 : wfOpt c = true ∧ wfInputs rest = true := by
        simpa [wfInputs, Bool.and_eq_true] using hwf
      exact h2.2
    have hcnt2 : stmtCount rest ≤ 1 := by
      simpa [stmtCount] using hcnt
    simp only [renderFirstBody]
    rw [ownedRenderFirstBody rest r path hparts hcnt2]
    simp [inputsStmtIds]

end

theorem ownedStack :
    ∀ s : BlkList, wfStack s = true → ownedIds (makeStackItem Option.none s) = seqIds s
  | .nil, _ => rfl
  | .cons b rest, hwf => by
    have hparts : wfBlk b = true ∧ wfSeq rest = true := by
      simpa [wfStack, Bool.and_eq_true] using hwf
    show ownedIds (renderSeq Option.none b.id b.id [] SeqPos.stackTop (BlkList.cons b rest)) = _
    simp only [renderSeq, ownedIds_append]
    rw [ownedRenderBlk b b.id [] SeqPos.stackTop (!rest.isNil) hparts.1 (Or.inl rfl)]
    rw [ownedRenderSeq rest b.id [] SeqPos.midSeq hparts.2]
    rfl

theorem makeStacks_length (ws : List BlkList) :
    ∀ (mov : Option MovCtx) (mk : List Nat), (makeStacks mov mk ws).length = ws.length := by
  induction ws with
  | nil => intro mov mk; rfl
  | cons s rest ih =>
    intro mov mk
    simp only [makeStacks, List.length_cons]
    rw [ih]

theorem makeStacks_map_owned (ws : List BlkList) (hwf : wfWs ws = true) :
    ∀ mk, (makeStacks Option.none mk ws).map (fun p => ownedIds p.2) = ws.map seqIds := by
  induction ws with
  | nil => intro mk; rfl
  | cons s rest ih =>
    intro mk
    have hparts : wfStack s = true ∧ wfWs rest = true := by
      simpa [wfWs, List.all_cons, Bool.and_eq_true] using hwf
    simp only [makeStacks, List.map_cons]
    rw [ownedStack s hparts.1, ih hparts.2]

/-! ## Claim C4: the whole-workspace listing -/

/-- C4 counterexample: two acyclic trees with well-defined root ancestors
on which the code falsifies the claim as stated.  A function-with-return
block (id 3, body block 4, inline output-connected return block 5) renders
the root-owned items 3, 4 and 5: the return-value relocation of
`makeBlockList_` lines 558-563 lists the output-connected inline block 5
as a full block item, although the non-inline blocks of the stack are just
3 and 4 and the claim allows guard-failing nodes at most an
end-of-construct label.  A non-if block (id 6) with two statement inputs
holding blocks 7 and 8 renders only 6 and 7: the walk visits only the
first nested body, omitting the non-inline block 8. -/
theorem C4_counterexample :
    ((makeWorkspaceView Option.none defRetWs).map (fun p => ownedIds p.2) = [[3, 4, 5]]) ∧
    (defRetWs.map seqIds = [[3, 4]]) ∧
    (retValBlk.hasOutput = true) ∧
    ((makeWorkspaceView Option.none twoStmtWs).map (fun p => ownedIds p.2) = [[6, 7]]) ∧
    (twoStmtWs.map seqIds = [[6, 7, 8]]) := by
  decide

/-- C4 (amended): for every well-formed workspace -- acyclic with
well-defined root ancestors, statement-positioned blocks without output
connections, if blocks with the host-built alternating branch children,
and additionally (forced by the counterexample) no function-with-return
blocks and at most one statement input per non-if block -- the
whole-workspace linearization lists every top-level stack exactly once and
in order, and within each stack the blocks expanded as root-owned list
items are exactly the non-inline blocks of that stack, each exactly once
and in traversal order; moreover a node failing the expansion guard -- an
output-connected block with a parent, or a block whose root block differs
from the declared stack root -- contributes at most its end-of-construct
label. -/
theorem C4_theorem (ws : List BlkList) (hwf : wfWs ws = true) :
    ((makeWorkspaceView Option.none ws).length = ws.length) ∧
    ((makeWorkspaceView Option.none ws).map (fun p => ownedIds p.2) = ws.map seqIds) ∧
    (∀ (b : Blk) (r sr : Nat) (path : List Nat) (pos : SeqPos) (hns : Bool),
        ((b.hasOutput && (pos != SeqPos.stackTop)) || (sr != r)) = true →
        renderBlk Option.none r sr path pos hns b = endLabelItems b) := by
  refine ⟨makeStacks_length ws Option.none [65], makeStacks_map_owned ws hwf [65], ?_⟩
  intro b r sr path pos hns hguard
  cases b with
  | mk id btype ut hasOut hasPrev hasNext inputs =>
    simp only [Blk.hasOutput] at hguard
    simp [renderBlk, hguard, endLabelItems, Blk.btype, Blk.untilText]

/-- C4 witness: the example workspace (an if/elseif/else stack and a lone
block stack) is well-formed and its rendered view owns exactly the
non-inline blocks of each stack. -/
theorem C4_witness :
    wfWs exWs = true ∧
    (makeWorkspaceView Option.none exWs).map (fun p => ownedIds p.2) = exWs.map seqIds ∧
    (makeWorkspaceView Option.none exWs).length = exWs.length :=
  ⟨by decide, (C4_theorem exWs (by decide)).2.1, (C4_theorem exWs (by decide)).1⟩
